import Mathlib

/-!
# Verification of `rf_buybox.py` (salsa-ig/buybox-winner)

Shallow embedding of the pure core of `src/rf_buybox.py`:

* Python/JSON values are modelled by `PyVal` (decoded JSON bodies; Python
  `None` is `PyVal.none`, and a missing dictionary key reads as `PyVal.none`,
  matching `dict.get`).
* Python floats are modelled as exact rationals (`ℚ`).  This is the usual
  rational embedding: IEEE rounding noise (e.g. the float `1e-9` not being
  exactly `10⁻⁹`) is below the granularity of every property proved here.
* Python strings are modelled as `List Char` (a Python `str` is a sequence
  of code points).

Each helper of the source file (`to_float`, `shorten`, `rf_get`,
`pick_buybox_from_offers`, `extract_money`) becomes a Lean definition of the
same name; the pure reconciliation part of `fetch_asin` (lines 80–144) becomes
`reconcile`, with one named definition per intermediate assignment of the
source.  The batch machinery of `main` (lines 230–247) becomes `task` /
`sortRows`.
-/

/-- Decoded JSON / Python value as manipulated by the script. -/
inductive PyVal where
  | none : PyVal
  | bool : Bool → PyVal
  | num : ℚ → PyVal
  | str : String → PyVal
  | list : List PyVal → PyVal
  | dict : List (String × PyVal) → PyVal

/-- Python truthiness (`bool(x)`) for the values above:
`None`, `False`, `0`, `""`, `[]`, `{}` are falsy, everything else truthy. -/
def truthy : PyVal → Bool
  | PyVal.none => false
  | PyVal.bool b => b
  | PyVal.num q => q != 0
  | PyVal.str s => s != ""
  | PyVal.list xs => !xs.isEmpty
  | PyVal.dict fs => !fs.isEmpty

/-- Model of `d.get(k)`: first binding of `k` in a dict, `None` when the key is
missing.  On a non-dict value Python would raise `AttributeError`; the
source only calls `.get` on dicts (it guards with `or {}`), so the `none`
result for non-dicts is outside the exercised contract. -/
def pget (d : PyVal) (k : String) : PyVal :=
  match d with
  | PyVal.dict fs =>
    match fs.find? (fun p => p.1 = k) with
    | some p => p.2
    | Option.none => PyVal.none
  | _ => PyVal.none

/-- Python `a or b`: `a` when truthy, else `b`. -/
def pyOr (a b : PyVal) : PyVal := if truthy a then a else b

/-- The literal `{}`. -/
def emptyDict : PyVal := PyVal.dict []

/-- Python `x is True` for a decoded JSON value. -/
def isTrueVal : PyVal → Bool
  | PyVal.bool true => true
  | _ => false

/-- Python `x is None` for a decoded JSON value. -/
def isNoneVal : PyVal → Bool
  | PyVal.none => true
  | _ => false

/-- Is the value a dict (`isinstance(m, dict)`)? -/
def isDict : PyVal → Bool
  | PyVal.dict _ => true
  | _ => false

/-- View a value as the list it will be iterated as.  The source only
iterates values that are lists (or the `[]` inserted by `or []`); a truthy
non-list would raise `TypeError` in Python and is outside the contract. -/
def asList : PyVal → List PyVal
  | PyVal.list xs => xs
  | _ => []

/-! ## `to_float` (source lines 22–27) -/

/-- Digits to a natural number, `foldl`-style. -/
def digitsToNat (ds : List Char) : ℕ :=
  ds.foldl (fun n c => 10 * n + (c.toNat - 48)) 0

/-- Exponent tail of a Python float literal: `""` or `e[±]digits`. -/
def parseExpTail (mant : ℚ) (cs : List Char) : Option ℚ :=
  match cs with
  | [] => some mant
  | e :: rest =>
    if e = 'e' ∨ e = 'E' then
      let (esgn, rest2) : ℤ × List Char :=
        match rest with
        | '+' :: r => (1, r)
        | '-' :: r => (-1, r)
        | _ => (1, rest)
      let ds := rest2.takeWhile Char.isDigit
      if ds = [] ∨ rest2.dropWhile Char.isDigit ≠ [] then Option.none
      else some (mant * (10 : ℚ) ^ (esgn * (digitsToNat ds : ℤ)))
    else Option.none

/-- Model of Python `float(s)` on strings: optional surrounding whitespace,
optional sign, decimal digits with optional fractional part and optional
exponent.  (The exotic accepted forms `inf`/`nan`/underscored digits have no
rational counterpart / are irrelevant here and are modelled as failures.) -/
def parseNum (s : String) : Option ℚ :=
  let cs0 := ((s.toList.dropWhile Char.isWhitespace).reverse.dropWhile
      Char.isWhitespace).reverse
  let (sgn, cs) : ℚ × List Char :=
    match cs0 with
    | '+' :: rest => (1, rest)
    | '-' :: rest => (-1, rest)
    | _ => (1, cs0)
  let intPart := cs.takeWhile Char.isDigit
  let rest := cs.dropWhile Char.isDigit
  match rest with
  | [] => if intPart = [] then Option.none else some (sgn * digitsToNat intPart)
  | '.' :: rest2 =>
    let frac := rest2.takeWhile Char.isDigit
    let rest3 := rest2.dropWhile Char.isDigit
    if intPart = [] ∧ frac = [] then Option.none
    else
      parseExpTail
        (sgn * ((digitsToNat intPart : ℚ) +
          (digitsToNat frac : ℚ) / (10 : ℚ) ^ frac.length)) rest3
  | _ =>
    if intPart = [] then Option.none
    else parseExpTail (sgn * digitsToNat intPart) rest

/-- Source `to_float` (lines 22–27): `float(x)` wrapped in `try/except` — `None`
in, `None` out; numbers and bools coerce; strings parse or yield `None`;
lists/dicts raise `TypeError` in Python, caught and turned into `None`. -/
def to_float (x : PyVal) : Option ℚ :=
  match x with
  | PyVal.none => Option.none
  | PyVal.bool b => some (if b then 1 else 0)
  | PyVal.num q => some q
  | PyVal.str s => parseNum s
  | PyVal.list _ => Option.none
  | PyVal.dict _ => Option.none

/-! ## `extract_money` (source lines 66–69) -/

/-- Source `extract_money` (lines 66–69): `(None, None)` unless the record is a
dict, else `(to_float(m.get("value")), m.get("currency"))` with the currency
passed through as-is. -/
def extract_money (m : PyVal) : Option ℚ × PyVal :=
  match m with
  | PyVal.dict _ => (to_float (pget m "value"), pget m "currency")
  | _ => (Option.none, PyVal.none)

/-! ## `pick_buybox_from_offers` (source lines 55–64) -/

/-- Source `pick_buybox_from_offers` (lines 55–64): extract the `offers` list
(`[]` when absent or falsy), find the first offer whose `buybox_winner`
field `is True`, and the first offer overall. -/
def pick_buybox_from_offers (offers_json : PyVal) :
    Bool × Option PyVal × Option PyVal :=
  let offers := asList (pyOr (pget offers_json "offers") (PyVal.list []))
  let bb := offers.find? (fun o => isTrueVal (pget o "buybox_winner"))
  let top := offers.head?
  (bb.isSome, bb, top)

/-! ## `shorten` (source lines 29–36)

Python strings are sequences of code points, embedded as `List Char`;
`str.split()` splits on whitespace runs discarding empties, and
`" ".join(...)` rejoins with single spaces. -/

/-- Model of `" ".join(str(text).split())`: collapse whitespace runs to single
spaces and strip the ends. -/
def collapse (cs : List Char) : List Char :=
  List.intercalate [' ']
    ((cs.splitOnP Char.isWhitespace).filter (fun w => w ≠ []))

/-- Model of `s.rsplit(" ", 1)[0]`: everything before the last space, or the whole
string when it has no space. -/
def cutLastWord (cs : List Char) : List Char :=
  match cs.reverse.dropWhile (fun c => c ≠ ' ') with
  | [] => cs
  | _ :: rest => rest.reverse

/-- Source `shorten` (lines 29–36): falsy input (`None`, `""`) is returned as-is;
otherwise the text is whitespace-collapsed; if it fits in `max_len` it is
returned unchanged, else the length-`max_len` prefix loses its last
space-separated token (kept whole if it has no space) and `…` is appended. -/
def shorten (text : Option (List Char)) (max_len : ℕ) : Option (List Char) :=
  match text with
  | Option.none => Option.none
  | some cs =>
    if cs = [] then some cs
    else
      let t := collapse cs
      if t.length ≤ max_len then some t
      else
        let cut := cutLastWord (t.take max_len)
        some ((if cut = [] then t.take max_len else cut) ++ ['…'])

/-! ## `rf_get` (source lines 38–53)

The sequence of HTTP responses the server would give to the successive
attempts is the input (`resp i` = response to attempt `i`); `json = none`
models a body `r.json()` cannot decode.  The returned trace lists the
`time.sleep` durations in order. -/

/-- One HTTP response. -/
structure Resp where
  status : ℕ
  json : Option PyVal
  text : String

/-- Outcome of `rf_get`: decoded body, `RuntimeError(f"HTTP {status}: {j}")`
with the decoded (or raw-text-wrapped) error payload, or a decode failure
of a 200 body (uncaught `ValueError` in the source). -/
inductive FetchOutcome where
  | ok : PyVal → FetchOutcome
  | transportErr : ℕ → PyVal → FetchOutcome
  | decodeFail : String → FetchOutcome

/-- Statuses retried by line 45: `(429, 500, 502, 503, 504)`. -/
def retryable (s : ℕ) : Bool :=
  s = 429 ∨ s = 500 ∨ s = 502 ∨ s = 503 ∨ s = 504

/-- Error payload: `r.json()` if it decodes, else `{"error": r.text}`. -/
def errPayload (r : Resp) : PyVal :=
  match r.json with
  | some j => j
  | Option.none => PyVal.dict [("error", PyVal.str r.text)]

/-- The retry loop of `rf_get` from attempt `i` with current backoff. -/
def rfGetFrom (resp : ℕ → Resp) (retries : ℕ) (i : ℕ) (backoff : ℚ) :
    FetchOutcome × List ℚ :=
  let r := resp i
  if r.status = 200 then
    (match r.json with
     | some j => FetchOutcome.ok j
     | Option.none => FetchOutcome.decodeFail r.text, [])
  else if retryable r.status ∧ i < retries then
    let rest := rfGetFrom resp retries (i + 1) (2 * backoff)
    (rest.1, backoff :: rest.2)
  else
    (FetchOutcome.transportErr r.status (errPayload r), [])
termination_by retries - i
decreasing_by simp_all; omega

/-- Source `rf_get` (lines 38–53) with its sleep trace; `retries = 3` and
`backoff = 1.0` are the source defaults. -/
def rf_get (resp : ℕ → Resp) (retries : ℕ := 3) : FetchOutcome × List ℚ :=
  rfGetFrom resp retries 0 1

/-! ## The reconciler: the pure part of `fetch_asin` (source lines 80–144)

`prod` and `offers_json` are the two decoded bodies returned by the two
`rf_get` calls.  One Lean definition per intermediate assignment. -/

/-- Line 80: `p = prod.get("product") or {}`. -/
def pProd (prod : PyVal) : PyVal := pyOr (pget prod "product") emptyDict

/-- Line 85: `bb_prod = p.get("buybox_winner") or {}`. -/
def bbProd (prod : PyVal) : PyVal :=
  pyOr (pget (pProd prod) "buybox_winner") emptyDict

/-- Line 92: `chosen = bb_offer if buybox_exists else top_offer`. -/
def chosenOffer (offers_json : PyVal) : Option PyVal :=
  let r := pick_buybox_from_offers offers_json
  if r.1 then r.2.1 else r.2.2

/-- Model of `(chosen or {})`, also covering the `... if chosen else {}` guards:
the chosen offer when truthy, else `{}`. -/
def chosenD (offers_json : PyVal) : PyVal :=
  match chosenOffer offers_json with
  | some v => pyOr v emptyDict
  | Option.none => emptyDict

/-- The `to_float((X.get(k) or {}).get("value"))` pattern of lines 84 and
119–127. -/
def savingsValue (d : PyVal) (k : String) : Option ℚ :=
  to_float (pget (pyOr (pget d k) emptyDict) "value")

/-- Line 95: `extract_money((chosen.get("price") or {}) if chosen else {})`. -/
def priceFromChosen (offers_json : PyVal) : Option ℚ × PyVal :=
  extract_money (pyOr (pget (chosenD offers_json) "price") emptyDict)

/-- Lines 95–97: the chosen offer's price, with both members of the pair
replaced by `bb_prod.price` when the value is `None`. -/
def pricePair (prod offers_json : PyVal) : Option ℚ × PyVal :=
  if (priceFromChosen offers_json).1.isSome then priceFromChosen offers_json
  else extract_money (pyOr (pget (bbProd prod) "price") emptyDict)

/-- Line 100: `seller_obj = (chosen or {}).get("seller") or {}`. -/
def sellerObj (offers_json : PyVal) : PyVal :=
  pyOr (pget (chosenD offers_json) "seller") emptyDict

/-- The `(bb_prod.get("seller") or {})` fallback source of lines 101–102. -/
def bbSeller (prod : PyVal) : PyVal :=
  pyOr (pget (bbProd prod) "seller") emptyDict

/-- Line 101: `seller_name = seller_obj.get("name") or (...).get("name")`. -/
def sellerName (prod offers_json : PyVal) : PyVal :=
  pyOr (pget (sellerObj offers_json) "name") (pget (bbSeller prod) "name")

/-- Line 102: `seller_id = seller_obj.get("id") or (...).get("id")`. -/
def sellerId (prod offers_json : PyVal) : PyVal :=
  pyOr (pget (sellerObj offers_json) "id") (pget (bbSeller prod) "id")

/-- Lines 105–107: `prime`, falling back only on `None` (an explicit
`False` is kept). -/
def primeVal (prod offers_json : PyVal) : PyVal :=
  let p0 := pget (chosenD offers_json) "is_prime"
  if isNoneVal p0 then pget (bbProd prod) "is_prime" else p0

/-- Line 110: `extract_money((chosen.get("rrp") or {}) if chosen else {})`. -/
def rrpFromChosen (offers_json : PyVal) : Option ℚ × PyVal :=
  extract_money (pyOr (pget (chosenD offers_json) "rrp") emptyDict)

/-- Lines 82–83: `extract_money(p.get("list_price"))`. -/
def productRrp (prod : PyVal) : Option ℚ × PyVal :=
  extract_money (pget (pProd prod) "list_price")

/-- Line 111: `rrp_val = chosen_rrp_val if chosen_rrp_val is not None
else product_rrp_val`. -/
def rrpVal (prod offers_json : PyVal) : Option ℚ :=
  if (rrpFromChosen offers_json).1.isSome then (rrpFromChosen offers_json).1
  else (productRrp prod).1

/-- Line 112: `rrp_ccy = chosen_rrp_ccy if chosen_rrp_ccy is not None
else product_rrp_ccy`. -/
def rrpCcy (prod offers_json : PyVal) : PyVal :=
  if isNoneVal (rrpFromChosen offers_json).2 then (productRrp prod).2
  else (rrpFromChosen offers_json).2

/-- Lines 119–127: the fixed-order discount-signal candidate list. -/
def discountCandidates (prod offers_json : PyVal) : List (Option ℚ) :=
  [ savingsValue (pProd prod) "savings",
    savingsValue (chosenD offers_json) "save",
    savingsValue (chosenD offers_json) "savings",
    savingsValue (chosenD offers_json) "amazon_discount",
    savingsValue (bbProd prod) "save",
    savingsValue (bbProd prod) "savings",
    savingsValue (bbProd prod) "amazon_discount" ]

/-- Lines 128–131: the `for v in candidates: if v is not None: discounted
= v > 0; break` loop. -/
def firstSignal : List (Option ℚ) → Option Bool
  | [] => Option.none
  | Option.none :: rest => firstSignal rest
  | some v :: _ => some (decide (0 < v))

/-- The float literal `1e-9` of line 117 (exact value in the rational
model). -/
def epsilon : ℚ := 1 / 1000000000

/-- Lines 114–131: the tri-state `discounted`. -/
def discountedVal (prod offers_json : PyVal) : Option Bool :=
  match rrpVal prod offers_json, (pricePair prod offers_json).1 with
  | some r, some pv => some (decide (pv < r - epsilon))
  | _, _ => firstSignal (discountCandidates prod offers_json)

/-- The canonical per-identifier output record (lines 133–144). -/
structure FactRecord where
  product_name : PyVal
  price : Option ℚ
  currency : PyVal
  buybox_exists : Bool
  seller_name : PyVal
  seller_id : PyVal
  prime : PyVal
  discounted : Option Bool
  rrp : Option ℚ
  rrp_currency : PyVal

/-- The pure reconciliation policy of `fetch_asin` (lines 80–144), from
the two decoded bodies to the returned record. -/
def reconcile (prod offers_json : PyVal) : FactRecord where
  product_name := pget (pProd prod) "title"
  price := (pricePair prod offers_json).1
  currency := (pricePair prod offers_json).2
  buybox_exists := (pick_buybox_from_offers offers_json).1
  seller_name := sellerName prod offers_json
  seller_id := sellerId prod offers_json
  prime := primeVal prod offers_json
  discounted := discountedVal prod offers_json
  rrp := rrpVal prod offers_json
  rrp_currency := rrpCcy prod offers_json

/-! ## Batch runner (source lines 230–247)

`fetch` abstracts `fetch_asin(api_key, a, domain)` including its network
side: `Except.error msg` is the caught exception's `str(e)`.  A task result
is the row dict tagged with `_idx`, modelled as an index/row pair; the
completion order of `as_completed` is an arbitrary permutation of the
submitted tasks. -/

/-- One output row: either a full record (`{**d, "asin": a}`) or the error
row `{"asin": a, "error": str(e)}`, which by construction carries nothing
but the identifier and the message. -/
inductive Row where
  | ok : String → FactRecord → Row
  | err : String → String → Row

/-- The identifier column of a row. -/
def Row.asin : Row → String
  | Row.ok a _ => a
  | Row.err a _ => a

/-- Lines 230–237: the per-identifier closure `task(idx, a)`, returning the
row tagged with its original input index. -/
def task (fetch : String → Except String FactRecord) (idx : ℕ) (a : String) :
    ℕ × Row :=
  match fetch a with
  | Except.ok d => (idx, Row.ok a d)
  | Except.error e => (idx, Row.err a e)

/-- Lines 245–247: `rows.sort(key=lambda r: r.get("_idx", 0))` followed by
popping `_idx` — a stable key-sort on the tag, then dropping it.  Python's
`list.sort` is a stable mergesort. -/
def sortRows (rows : List (ℕ × Row)) : List Row :=
  (rows.mergeSort (fun x y => Nat.ble x.1 y.1)).map Prod.snd

/-- The rows submitted for a batch, in input order (line 241's
`enumerate(asins)` handed to `task`). -/
def submittedRows (fetch : String → Except String FactRecord)
    (asins : List String) : List (ℕ × Row) :=
  asins.enum.map (fun p => task fetch p.1 p.2)

/-- The row an identifier contributes, independent of its position. -/
def rowFor (fetch : String → Except String FactRecord) (a : String) : Row :=
  match fetch a with
  | Except.ok d => Row.ok a d
  | Except.error e => Row.err a e

/-! ## Claim-side definitions

These two definitions follow the words of spec claims (not the source); they
exist only to be compared with the source-derived definitions above. -/

/-- C2's pairing property, as the spec words it: the final RRP
value/currency pair comes whole from one source record — either the
normalized `chosen_offer.rrp` pair or the product-level `list_price` pair. -/
def rrpSameSource (prod offers_json : PyVal) : Prop :=
  ((reconcile prod offers_json).rrp, (reconcile prod offers_json).rrp_currency)
      = rrpFromChosen offers_json
  ∨ ((reconcile prod offers_json).rrp, (reconcile prod offers_json).rrp_currency)
      = productRrp prod

/-- C8's truncation rule, as the spec words it: cut the collapsed text at
the last word boundary at or before the limit (a position `p ≤ limit`
bearing a space, i.e. the prefix of length `p` ends at a complete word) and
append an ellipsis. -/
def shortenClaimCut (t : List Char) (max_len : ℕ) : Option (List Char) :=
  (((List.range (max_len + 1)).filter (fun p => t.drop p |>.head? |>.any (fun c => c = ' '))).getLast?).map
    (fun p => t.take p ++ ['…'])

/-! ## Helper lemmas -/

/-- A completion-order permutation of the index-tagged rows, once key-sorted,
is exactly the input-order tagged list. -/
theorem mergeSort_enum_eq (l : List Row) (arrival : List (ℕ × Row))
    (h : arrival.Perm l.enum) :
    arrival.mergeSort (fun x y => Nat.ble x.1 y.1) = l.enum := by
  set s := arrival.mergeSort (fun x y => Nat.ble x.1 y.1) with hs
  have hperm : s.Perm l.enum := (List.mergeSort_perm arrival _).trans h
  have htrans : ∀ a b c : ℕ × Row, Nat.ble a.1 b.1 → Nat.ble b.1 c.1 →
      Nat.ble a.1 c.1 := by
    intro a b c h1 h2
    simp only [Nat.ble_eq] at *
    omega
  have htotal : ∀ a b : ℕ × Row, Nat.ble a.1 b.1 || Nat.ble b.1 a.1 := by
    intro a b
    rcases Nat.le_total a.1 b.1 with h' | h' <;> simp [Nat.ble_eq, h']
  have hsorted : s.Pairwise (fun a b : ℕ × Row => Nat.ble a.1 b.1 = true) := by
    rw [hs]
    exact List.sorted_mergeSort htrans htotal arrival
  have hfst : (s.map Prod.fst).Perm (List.range l.length) := by
    have := hperm.map Prod.fst
    rwa [List.enum_map_fst] at this
  have hnodup : (s.map Prod.fst).Nodup :=
    hfst.nodup_iff.mpr (List.nodup_range _)
  have hne : s.Pairwise (fun a b : ℕ × Row => a.1 ≠ b.1) :=
    List.pairwise_map.mp hnodup
  have hlt : s.Pairwise (fun a b : ℕ × Row => a.1 < b.1) := by
    refine (hsorted.and hne).imp ?_
    intro a b hab
    have := hab.1
    simp only [Nat.ble_eq] at this
    exact lt_of_le_of_ne this hab.2
  have henum : l.enum.Pairwise (fun a b : ℕ × Row => a.1 < b.1) := by
    have : (l.enum.map Prod.fst).Pairwise (fun a b : ℕ => a < b) := by
      rw [List.enum_map_fst]
      exact List.pairwise_lt_range _
    exact List.pairwise_map.mp this
  haveI : IsAntisymm (ℕ × Row) (fun a b => a.1 < b.1) :=
    ⟨fun a b h1 h2 => absurd h1 (Nat.lt_asymm h2)⟩
  exact List.eq_of_perm_of_sorted hperm hlt henum

/-- Sorting any completion order of the tagged rows recovers the untagged
rows in input order. -/
theorem sortRows_of_perm (l : List Row) (arrival : List (ℕ × Row))
    (h : arrival.Perm l.enum) : sortRows arrival = l := by
  unfold sortRows
  rw [mergeSort_enum_eq l arrival h, List.enum_map_snd]

/-- The submitted tagged rows are the input-order rows, enumerated. -/
theorem submittedRows_eq_enum (fetch : String → Except String FactRecord)
    (asins : List String) :
    submittedRows fetch asins = (asins.map (rowFor fetch)).enum := by
  unfold submittedRows
  rw [List.enum_map]
  apply List.map_congr_left
  intro p _
  obtain ⟨i, a⟩ := p
  unfold task rowFor Prod.map
  cases hp : fetch a <;> simp [hp]

/-- The source's first-hit loop over the candidates equals taking the first
present value of the list. -/
theorem firstSignal_eq_findSome (cs : List (Option ℚ)) :
    firstSignal cs = (cs.findSome? id).map (fun v => decide (0 < v)) := by
  induction cs with
  | nil => rfl
  | cons c rest ih => cases c <;> simp [firstSignal, List.findSome?_cons, ih]

/-- Lemma: `isTrueVal` tests exact equality with the boolean `true`. -/
theorem isTrueVal_iff (v : PyVal) : isTrueVal v = true ↔ v = PyVal.bool true := by
  cases v with
  | bool b => cases b <;> simp [isTrueVal]
  | _ => simp [isTrueVal]

/-- Characterization of `List.find?`: the hit is the first element
satisfying the predicate. -/
theorem find?_first {α : Type} (p : α → Bool) (l : List α) (o : α)
    (h : l.find? p = some o) :
    ∃ i, ∃ hi : i < l.length, l.get ⟨i, hi⟩ = o ∧ p o = true ∧
      ∀ j (hj : j < l.length), j < i → p (l.get ⟨j, hj⟩) = false := by
  induction l with
  | nil => simp at h
  | cons a rest ih =>
    by_cases hpa : p a = true
    · rw [List.find?_cons_of_pos rest hpa] at h
      obtain rfl : a = o := by injection h
      exact ⟨0, by simp, rfl, hpa, fun j hj hj0 => absurd hj0 (Nat.not_lt_zero j)⟩
    · have hpa' : p a = false := by simpa using hpa
      rw [List.find?_cons_of_neg rest (by simp [hpa'])] at h
      obtain ⟨i, hi, hget, hpo, hfirst⟩ := ih h
      refine ⟨i + 1, by simpa using Nat.succ_lt_succ hi, by simpa using hget, hpo, ?_⟩
      intro j hj hji
      cases j with
      | zero => simpa using hpa'
      | succ k =>
        have hk : k < rest.length := by simpa using hj
        have := hfirst k hk (Nat.lt_of_succ_lt_succ hji)
        simpa using this

/-! ## Claim theorems -/

/-- C1: for every pair of decoded product-view and offers-view bodies, the
reconciler's `discounted` follows the exact tri-state policy — when both
the resolved RRP value and resolved price value are present,
`discounted = (price < rrp - 1e-9)` (so a price equal to RRP gives
`false`); otherwise the fixed-order candidate list
`[product_savings, chosen.save, chosen.savings, chosen.amazon_discount,
bb_prod.save, bb_prod.savings, bb_prod.amazon_discount]` is scanned and the
first present value `v` gives `discounted = (v > 0)`; with no present
value, `discounted` is `None`. -/
theorem discounted_tristate_policy (prod offers_json : PyVal) :
    (∀ r pv, rrpVal prod offers_json = some r →
      (pricePair prod offers_json).1 = some pv →
      (reconcile prod offers_json).discounted = some (decide (pv < r - epsilon)))
    ∧ ((rrpVal prod offers_json = Option.none ∨
        (pricePair prod offers_json).1 = Option.none) →
      (reconcile prod offers_json).discounted =
        ((discountCandidates prod offers_json).findSome? id).map
          (fun v => decide (0 < v))) := by
  constructor
  · intro r pv hr hp
    show discountedVal prod offers_json = _
    unfold discountedVal
    rw [hr, hp]
  · intro h
    show discountedVal prod offers_json = _
    unfold discountedVal
    rcases hr : rrpVal prod offers_json with _ | r
    · rcases hp : (pricePair prod offers_json).1 with _ | pv <;>
        exact firstSignal_eq_findSome _
    · rcases hp : (pricePair prod offers_json).1 with _ | pv
      · exact firstSignal_eq_findSome _
      · rcases h with h | h
        · rw [hr] at h; cases h
        · rw [hp] at h; cases h

/-- Witness for C1 at a concrete input: product `list_price` 10 GBP, buy-box
offer priced at exactly 10 — both resolved values present and
`discounted = false` (price equal to RRP is not discounted). -/
theorem discounted_tristate_policy_witness :
    (reconcile
        (PyVal.dict [("product", PyVal.dict
          [("list_price", PyVal.dict
            [("value", PyVal.num 10), ("currency", PyVal.str "GBP")])])])
        (PyVal.dict [("offers", PyVal.list
          [PyVal.dict [("buybox_winner", PyVal.bool true),
            ("price", PyVal.dict [("value", PyVal.num 10)])]])])).discounted
      = some false := by
  have h := (discounted_tristate_policy
      (PyVal.dict [("product", PyVal.dict
        [("list_price", PyVal.dict
          [("value", PyVal.num 10), ("currency", PyVal.str "GBP")])])])
      (PyVal.dict [("offers", PyVal.list
        [PyVal.dict [("buybox_winner", PyVal.bool true),
          ("price", PyVal.dict [("value", PyVal.num 10)])]])])).1
      10 10 (by decide) (by decide)
  rw [h]
  have hlt : ¬ ((10 : ℚ) < 10 - epsilon) := by unfold epsilon; norm_num
  simp [hlt]

/-- Lemma: `isNoneVal` tests exact equality with `None`. -/
theorem isNoneVal_iff (v : PyVal) : isNoneVal v = true ↔ v = PyVal.none := by
  cases v <;> simp [isNoneVal]

/-- C2 counterexample: with a chosen offer carrying `rrp = {currency:
"GBP"}` (no numeric value) and a product `list_price = {value: 24,
currency: "USD"}`, the reconciled RRP is the product's value `24` paired
with the offer's currency `"GBP"` — neither source pair.  The claim that
value and currency always travel together from one source is false. -/
theorem rrp_mixed_sources_cex :
    ¬ rrpSameSource
      (PyVal.dict [("product", PyVal.dict [("list_price", PyVal.dict
        [("value", PyVal.num 24), ("currency", PyVal.str "USD")])])])
      (PyVal.dict [("offers", PyVal.list [PyVal.dict
        [("buybox_winner", PyVal.bool true),
         ("rrp", PyVal.dict [("currency", PyVal.str "GBP")])]])]) := by
  intro h
  rcases h with h | h
  · rw [show ((reconcile
        (PyVal.dict [("product", PyVal.dict [("list_price", PyVal.dict
          [("value", PyVal.num 24), ("currency", PyVal.str "USD")])])])
        (PyVal.dict [("offers", PyVal.list [PyVal.dict
          [("buybox_winner", PyVal.bool true),
           ("rrp", PyVal.dict [("currency", PyVal.str "GBP")])]])])).rrp,
        (reconcile
        (PyVal.dict [("product", PyVal.dict [("list_price", PyVal.dict
          [("value", PyVal.num 24), ("currency", PyVal.str "USD")])])])
        (PyVal.dict [("offers", PyVal.list [PyVal.dict
          [("buybox_winner", PyVal.bool true),
           ("rrp", PyVal.dict [("currency", PyVal.str "GBP")])]])])).rrp_currency)
        = ((some 24 : Option ℚ), PyVal.str "GBP") from rfl,
      show rrpFromChosen
        (PyVal.dict [("offers", PyVal.list [PyVal.dict
          [("buybox_winner", PyVal.bool true),
           ("rrp", PyVal.dict [("currency", PyVal.str "GBP")])]])])
        = (Option.none, PyVal.str "GBP") from rfl] at h
    simp at h
  · rw [show ((reconcile
        (PyVal.dict [("product", PyVal.dict [("list_price", PyVal.dict
          [("value", PyVal.num 24), ("currency", PyVal.str "USD")])])])
        (PyVal.dict [("offers", PyVal.list [PyVal.dict
          [("buybox_winner", PyVal.bool true),
           ("rrp", PyVal.dict [("currency", PyVal.str "GBP")])]])])).rrp,
        (reconcile
        (PyVal.dict [("product", PyVal.dict [("list_price", PyVal.dict
          [("value", PyVal.num 24), ("currency", PyVal.str "USD")])])])
        (PyVal.dict [("offers", PyVal.list [PyVal.dict
          [("buybox_winner", PyVal.bool true),
           ("rrp", PyVal.dict [("currency", PyVal.str "GBP")])]])])).rrp_currency)
        = ((some 24 : Option ℚ), PyVal.str "GBP") from rfl,
      show productRrp
        (PyVal.dict [("product", PyVal.dict [("list_price", PyVal.dict
          [("value", PyVal.num 24), ("currency", PyVal.str "USD")])])])
        = (some 24, PyVal.str "USD") from rfl] at h
    simp at h

/-- C2 (amended): RRP value and RRP currency are resolved independently —
the value is the chosen offer's normalized `rrp` value, falling back to the
product `list_price` value when `None`; the currency is the chosen offer's
`rrp` currency, falling back to the product `list_price` currency when
`None`; so a value from one source can be paired with a currency from the
other. -/
theorem rrp_value_currency_indep (prod offers_json : PyVal) :
    ((rrpFromChosen offers_json).1.isSome →
      (reconcile prod offers_json).rrp = (rrpFromChosen offers_json).1)
    ∧ ((rrpFromChosen offers_json).1 = Option.none →
      (reconcile prod offers_json).rrp = (productRrp prod).1)
    ∧ ((rrpFromChosen offers_json).2 ≠ PyVal.none →
      (reconcile prod offers_json).rrp_currency = (rrpFromChosen offers_json).2)
    ∧ ((rrpFromChosen offers_json).2 = PyVal.none →
      (reconcile prod offers_json).rrp_currency = (productRrp prod).2) := by
  refine ⟨?_, ?_, ?_, ?_⟩
  · intro h
    show rrpVal prod offers_json = _
    unfold rrpVal
    rw [if_pos h]
  · intro h
    show rrpVal prod offers_json = _
    unfold rrpVal
    rw [h]
    simp
  · intro h
    show rrpCcy prod offers_json = _
    unfold rrpCcy
    rw [if_neg (by simpa [isNoneVal_iff] using h)]
  · intro h
    show rrpCcy prod offers_json = _
    unfold rrpCcy
    rw [if_pos (by simpa [isNoneVal_iff] using h)]

/-- Witness for C2's amended theorem at the counterexample input: the value
falls back to the product while the currency stays with the offer. -/
theorem rrp_value_currency_indep_witness :
    (reconcile
      (PyVal.dict [("product", PyVal.dict [("list_price", PyVal.dict
        [("value", PyVal.num 24), ("currency", PyVal.str "USD")])])])
      (PyVal.dict [("offers", PyVal.list [PyVal.dict
        [("buybox_winner", PyVal.bool true),
         ("rrp", PyVal.dict [("currency", PyVal.str "GBP")])]])])).rrp
      = some 24
    ∧ (reconcile
      (PyVal.dict [("product", PyVal.dict [("list_price", PyVal.dict
        [("value", PyVal.num 24), ("currency", PyVal.str "USD")])])])
      (PyVal.dict [("offers", PyVal.list [PyVal.dict
        [("buybox_winner", PyVal.bool true),
         ("rrp", PyVal.dict [("currency", PyVal.str "GBP")])]])])).rrp_currency
      = PyVal.str "GBP" := by
  constructor
  · rw [(rrp_value_currency_indep
      (PyVal.dict [("product", PyVal.dict [("list_price", PyVal.dict
        [("value", PyVal.num 24), ("currency", PyVal.str "USD")])])])
      (PyVal.dict [("offers", PyVal.list [PyVal.dict
        [("buybox_winner", PyVal.bool true),
         ("rrp", PyVal.dict [("currency", PyVal.str "GBP")])]])])).2.1 rfl]
    rfl
  · rw [(rrp_value_currency_indep
      (PyVal.dict [("product", PyVal.dict [("list_price", PyVal.dict
        [("value", PyVal.num 24), ("currency", PyVal.str "USD")])])])
      (PyVal.dict [("offers", PyVal.list [PyVal.dict
        [("buybox_winner", PyVal.bool true),
         ("rrp", PyVal.dict [("currency", PyVal.str "GBP")])]])])).2.2.1
      (by intro h; cases h)]
    rfl

/-- Extracting the offers list from `{"offers": offers}` yields `offers`
(the `or []` detour through falsiness is the identity here). -/
theorem asList_offers (offers : List PyVal) :
    asList (pyOr (PyVal.list offers) (PyVal.list [])) = offers := by
  cases offers with
  | nil => rfl
  | cons a l => rfl

/-- C3: the Offer Selector returns `buybox_exists = true` iff some offer
has its buy-box flag exactly `true`; the buybox offer is the first such
offer in list order; `top_offer` is the head of the list (absent when the
list is empty or the `offers` field is missing); and the chosen offer is
the buybox offer when one exists, else the top offer. -/
theorem offer_selector_spec (offers : List PyVal) :
    ((pick_buybox_from_offers (PyVal.dict [("offers", PyVal.list offers)])).1 = true
        ↔ ∃ o ∈ offers, pget o "buybox_winner" = PyVal.bool true)
    ∧ (∀ o,
        (pick_buybox_from_offers (PyVal.dict [("offers", PyVal.list offers)])).2.1 = some o →
        ∃ i, ∃ hi : i < offers.length, offers.get ⟨i, hi⟩ = o ∧
          pget o "buybox_winner" = PyVal.bool true ∧
          ∀ j (hj : j < offers.length), j < i →
            pget (offers.get ⟨j, hj⟩) "buybox_winner" ≠ PyVal.bool true)
    ∧ (pick_buybox_from_offers (PyVal.dict [("offers", PyVal.list offers)])).2.2
        = offers.head?
    ∧ pick_buybox_from_offers (PyVal.dict []) = (false, Option.none, Option.none)
    ∧ chosenOffer (PyVal.dict [("offers", PyVal.list offers)])
        = (if (pick_buybox_from_offers (PyVal.dict [("offers", PyVal.list offers)])).1
           then (pick_buybox_from_offers (PyVal.dict [("offers", PyVal.list offers)])).2.1
           else (pick_buybox_from_offers (PyVal.dict [("offers", PyVal.list offers)])).2.2) := by
  have hpick : pick_buybox_from_offers (PyVal.dict [("offers", PyVal.list offers)])
      = ((offers.find? (fun o => isTrueVal (pget o "buybox_winner"))).isSome,
         offers.find? (fun o => isTrueVal (pget o "buybox_winner")),
         offers.head?) := by
    unfold pick_buybox_from_offers
    rw [show pget (PyVal.dict [("offers", PyVal.list offers)]) "offers"
        = PyVal.list offers from rfl]
    rw [asList_offers]
  refine ⟨?_, ?_, ?_, rfl, rfl⟩
  · rw [hpick]
    simp only [List.find?_isSome]
    constructor
    · rintro ⟨o, ho, hp⟩
      exact ⟨o, ho, (isTrueVal_iff _).mp hp⟩
    · rintro ⟨o, ho, hp⟩
      exact ⟨o, ho, (isTrueVal_iff _).mpr hp⟩
  · intro o ho
    rw [hpick] at ho
    obtain ⟨i, hi, hget, hpo, hfirst⟩ := find?_first _ _ _ ho
    refine ⟨i, hi, hget, (isTrueVal_iff _).mp hpo, ?_⟩
    intro j hj hji hcontra
    have := hfirst j hj hji
    rw [(isTrueVal_iff _).mpr hcontra] at this
    cases this
  · rw [hpick]

/-- Witness for C3: in a three-offer list where the second and third offers
both carry `buybox_winner = true`, the selector's buybox offer is the
second (first qualifying) one. -/
theorem offer_selector_spec_witness :
    ∃ i, ∃ hi : i < ([PyVal.dict [("id", PyVal.str "a")],
        PyVal.dict [("buybox_winner", PyVal.bool true), ("id", PyVal.str "b")],
        PyVal.dict [("buybox_winner", PyVal.bool true), ("id", PyVal.str "c")]]
          : List PyVal).length,
      ([PyVal.dict [("id", PyVal.str "a")],
        PyVal.dict [("buybox_winner", PyVal.bool true), ("id", PyVal.str "b")],
        PyVal.dict [("buybox_winner", PyVal.bool true), ("id", PyVal.str "c")]]
          : List PyVal).get ⟨i, hi⟩
        = PyVal.dict [("buybox_winner", PyVal.bool true), ("id", PyVal.str "b")] ∧
      pget (PyVal.dict [("buybox_winner", PyVal.bool true), ("id", PyVal.str "b")])
          "buybox_winner" = PyVal.bool true ∧
      ∀ j (hj : j < ([PyVal.dict [("id", PyVal.str "a")],
          PyVal.dict [("buybox_winner", PyVal.bool true), ("id", PyVal.str "b")],
          PyVal.dict [("buybox_winner", PyVal.bool true), ("id", PyVal.str "c")]]
            : List PyVal).length), j < i →
        pget (([PyVal.dict [("id", PyVal.str "a")],
          PyVal.dict [("buybox_winner", PyVal.bool true), ("id", PyVal.str "b")],
          PyVal.dict [("buybox_winner", PyVal.bool true), ("id", PyVal.str "c")]]
            : List PyVal).get ⟨j, hj⟩) "buybox_winner" ≠ PyVal.bool true :=
  (offer_selector_spec
    [PyVal.dict [("id", PyVal.str "a")],
     PyVal.dict [("buybox_winner", PyVal.bool true), ("id", PyVal.str "b")],
     PyVal.dict [("buybox_winner", PyVal.bool true), ("id", PyVal.str "c")]]).2.1
    (PyVal.dict [("buybox_winner", PyVal.bool true), ("id", PyVal.str "b")]) rfl

/-- The identifier column of a task's row is that task's identifier. -/
theorem rowFor_asin (fetch : String → Except String FactRecord) (a : String) :
    (rowFor fetch a).asin = a := by
  unfold rowFor
  cases fetch a <;> rfl

/-- C4: for every input identifier sequence and every completion order of
the per-identifier tasks (an arbitrary permutation of the index-tagged
submitted rows — this covers every worker count `W ≥ 1` and timing), the
re-sort by original input index makes the emitted row order equal the
input identifier order. -/
theorem batch_rows_input_order (fetch : String → Except String FactRecord)
    (asins : List String) (arrival : List (ℕ × Row))
    (h : arrival.Perm (submittedRows fetch asins)) :
    sortRows arrival = asins.map (rowFor fetch)
    ∧ (sortRows arrival).map Row.asin = asins := by
  have h2 : arrival.Perm ((asins.map (rowFor fetch)).enum) := by
    rwa [submittedRows_eq_enum] at h
  have h3 := sortRows_of_perm _ _ h2
  refine ⟨h3, ?_⟩
  rw [h3, List.map_map]
  calc asins.map (Row.asin ∘ rowFor fetch)
      = asins.map id := List.map_congr_left (fun a _ => rowFor_asin fetch a)
    _ = asins := List.map_id _

/-- Witness for C4: three identifiers, completion in reverse order, the
middle fetch failing; the sorted output is still the input-order rows. -/
theorem batch_rows_input_order_witness :
    sortRows ((submittedRows
        (fun a => if a = "B" then Except.error "HTTP 500: boom"
          else Except.ok (reconcile emptyDict emptyDict))
        ["A", "B", "C"]).reverse)
      = ["A", "B", "C"].map (rowFor
        (fun a => if a = "B" then Except.error "HTTP 500: boom"
          else Except.ok (reconcile emptyDict emptyDict)))
    ∧ (sortRows ((submittedRows
        (fun a => if a = "B" then Except.error "HTTP 500: boom"
          else Except.ok (reconcile emptyDict emptyDict))
        ["A", "B", "C"]).reverse)).map Row.asin = ["A", "B", "C"] :=
  batch_rows_input_order _ _ _ (List.reverse_perm _)

/-- C7: a failure fetching one identifier does not abort the others — the
output has exactly one row per input identifier; a failing identifier's row
is the error row (identifier and message only, by the shape of `Row.err`),
and every other identifier still gets its normal record. -/
theorem batch_error_isolation (fetch : String → Except String FactRecord)
    (asins : List String) (arrival : List (ℕ × Row))
    (h : arrival.Perm (submittedRows fetch asins)) :
    (sortRows arrival).length = asins.length
    ∧ ∀ i (hi : i < asins.length),
        (∀ e, fetch (asins.get ⟨i, hi⟩) = Except.error e →
          (sortRows arrival)[i]? = some (Row.err (asins.get ⟨i, hi⟩) e))
        ∧ (∀ d, fetch (asins.get ⟨i, hi⟩) = Except.ok d →
          (sortRows arrival)[i]? = some (Row.ok (asins.get ⟨i, hi⟩) d)) := by
  have h2 : arrival.Perm ((asins.map (rowFor fetch)).enum) := by
    rwa [submittedRows_eq_enum] at h
  have h3 := sortRows_of_perm _ _ h2
  rw [h3]
  refine ⟨by simp, ?_⟩
  intro i hi
  have hmap : (asins.map (rowFor fetch))[i]? = some (rowFor fetch (asins.get ⟨i, hi⟩)) := by
    rw [List.getElem?_map]
    rw [List.getElem?_eq_getElem hi]
    simp [List.get_eq_getElem]
  constructor
  · intro e he
    rw [hmap]
    unfold rowFor
    rw [he]
  · intro d hd
    rw [hmap]
    unfold rowFor
    rw [hd]

/-- Witness for C7: with the middle of three identifiers failing and a
reverse completion order, the batch still emits three rows and row 1 is the
bare error row while row 0 keeps its normal record. -/
theorem batch_error_isolation_witness :
    (sortRows ((submittedRows
        (fun a => if a = "B" then Except.error "HTTP 500: boom"
          else Except.ok (reconcile emptyDict emptyDict))
        ["A", "B", "C"]).reverse)).length = 3
    ∧ (sortRows ((submittedRows
        (fun a => if a = "B" then Except.error "HTTP 500: boom"
          else Except.ok (reconcile emptyDict emptyDict))
        ["A", "B", "C"]).reverse))[1]? = some (Row.err "B" "HTTP 500: boom")
    ∧ (sortRows ((submittedRows
        (fun a => if a = "B" then Except.error "HTTP 500: boom"
          else Except.ok (reconcile emptyDict emptyDict))
        ["A", "B", "C"]).reverse))[0]?
        = some (Row.ok "A" (reconcile emptyDict emptyDict)) := by
  have h := batch_error_isolation
    (fun a => if a = "B" then Except.error "HTTP 500: boom"
      else Except.ok (reconcile emptyDict emptyDict))
    ["A", "B", "C"] _ (List.reverse_perm _)
  exact ⟨h.1, (h.2 1 (by decide)).1 "HTTP 500: boom" rfl,
    (h.2 0 (by decide)).2 (reconcile emptyDict emptyDict) rfl⟩

/-- Step lemma for `rf_get`: a 200 response ends the loop with the decoded body. -/
theorem rfGetFrom_200 (resp : ℕ → Resp) (retries i : ℕ) (backoff : ℚ)
    (h : (resp i).status = 200) :
    rfGetFrom resp retries i backoff =
      (match (resp i).json with
       | some j => FetchOutcome.ok j
       | Option.none => FetchOutcome.decodeFail (resp i).text, []) := by
  rw [rfGetFrom]
  simp [h]

/-- Step lemma for `rf_get`: a retryable non-200 status within budget sleeps
`backoff` and retries with the doubled backoff. -/
theorem rfGetFrom_retry (resp : ℕ → Resp) (retries i : ℕ) (backoff : ℚ)
    (h200 : (resp i).status ≠ 200) (hr : retryable (resp i).status = true)
    (hi : i < retries) :
    rfGetFrom resp retries i backoff =
      ((rfGetFrom resp retries (i + 1) (2 * backoff)).1,
        backoff :: (rfGetFrom resp retries (i + 1) (2 * backoff)).2) := by
  rw [rfGetFrom]
  simp [h200, hr, hi]

/-- Step lemma for `rf_get`: a non-200 status that is non-retryable or out of budget
raises at once with the status and the decoded (or raw-text) payload. -/
theorem rfGetFrom_stop (resp : ℕ → Resp) (retries i : ℕ) (backoff : ℚ)
    (h200 : (resp i).status ≠ 200)
    (h : ¬(retryable (resp i).status = true ∧ i < retries)) :
    rfGetFrom resp retries i backoff =
      (FetchOutcome.transportErr (resp i).status (errPayload (resp i)), []) := by
  rw [rfGetFrom]
  simp [h200, h]

/-- C5 counterexample: HTTP 501 is a 5xx status, but the code's retry set
is exactly `(429, 500, 502, 503, 504)`, so a 501 raises immediately — no
retry, no sleeps — refuting "any 5xx status is retried". -/
theorem rf_get_5xx_not_retried_cex :
    rf_get (fun _ => Resp.mk 501 Option.none "oops") 3
      = (FetchOutcome.transportErr 501 (PyVal.dict [("error", PyVal.str "oops")]), [])
    ∧ 500 ≤ 501 ∧ 501 < 600 := by
  refine ⟨?_, by norm_num, by norm_num⟩
  unfold rf_get
  rw [rfGetFrom_stop _ _ _ _ (by norm_num) (by simp [retryable])]
  rfl

/-- C5 (amended): behaviour of a single request with the default budget of
3 retries — 200 returns the decoded body at once; a non-200 status outside
the retry set `{429, 500, 502, 503, 504}` fails immediately with the
status and error payload; three retryable failures followed by a 200
succeed after blocking sleeps of 1, 2, 4; four consecutive retryable
failures exhaust the budget and fail with the final status after sleeps
1, 2, 4. -/
theorem rf_get_retry_spec (resp : ℕ → Resp) :
    ((resp 0).status = 200 → ∀ b, (resp 0).json = some b →
      rf_get resp 3 = (FetchOutcome.ok b, []))
    ∧ ((resp 0).status ≠ 200 → retryable (resp 0).status = false →
      rf_get resp 3 =
        (FetchOutcome.transportErr (resp 0).status (errPayload (resp 0)), []))
    ∧ ((∀ i, i < 3 → (resp i).status ≠ 200 ∧ retryable (resp i).status = true) →
      (resp 3).status = 200 → ∀ b, (resp 3).json = some b →
      rf_get resp 3 = (FetchOutcome.ok b, [1, 2, 4]))
    ∧ ((∀ i, i ≤ 3 → (resp i).status ≠ 200 ∧ retryable (resp i).status = true) →
      rf_get resp 3 =
        (FetchOutcome.transportErr (resp 3).status (errPayload (resp 3)), [1, 2, 4])) := by
  refine ⟨?_, ?_, ?_, ?_⟩
  · intro h b hb
    unfold rf_get
    rw [rfGetFrom_200 _ _ _ _ h, hb]
  · intro h200 hr
    unfold rf_get
    rw [rfGetFrom_stop _ _ _ _ h200 (by simp [hr])]
  · intro hall h200 b hb
    unfold rf_get
    rw [rfGetFrom_retry _ _ _ _ (hall 0 (by norm_num)).1 (hall 0 (by norm_num)).2
        (by norm_num)]
    rw [rfGetFrom_retry _ _ _ _ (hall 1 (by norm_num)).1 (hall 1 (by norm_num)).2
        (by norm_num)]
    rw [rfGetFrom_retry _ _ _ _ (hall 2 (by norm_num)).1 (hall 2 (by norm_num)).2
        (by norm_num)]
    rw [rfGetFrom_200 _ _ _ _ h200, hb]
    norm_num
  · intro hall
    unfold rf_get
    rw [rfGetFrom_retry _ _ _ _ (hall 0 (by norm_num)).1 (hall 0 (by norm_num)).2
        (by norm_num)]
    rw [rfGetFrom_retry _ _ _ _ (hall 1 (by norm_num)).1 (hall 1 (by norm_num)).2
        (by norm_num)]
    rw [rfGetFrom_retry _ _ _ _ (hall 2 (by norm_num)).1 (hall 2 (by norm_num)).2
        (by norm_num)]
    rw [rfGetFrom_stop _ _ _ _ (hall 3 (by norm_num)).1 (by norm_num)]
    norm_num

/-- Witness for C5 at the spec's own scenario: three consecutive 503s then
a 200 succeed on the 4th attempt with sleeps 1, 2, 4; and with a 4th
consecutive 503 the budget is exhausted and the transport error carries
status 503 (after the same sleeps). -/
theorem rf_get_retry_spec_witness :
    rf_get (fun i => if i < 3 then Resp.mk 503 Option.none "unavailable"
        else Resp.mk 200 (some (PyVal.str "body")) "") 3
      = (FetchOutcome.ok (PyVal.str "body"), [1, 2, 4])
    ∧ rf_get (fun _ => Resp.mk 503 Option.none "unavailable") 3
      = (FetchOutcome.transportErr 503
          (PyVal.dict [("error", PyVal.str "unavailable")]), [1, 2, 4]) := by
  constructor
  · exact (rf_get_retry_spec _).2.2.1
      (by intro i hi; interval_cases i <;> simp [retryable])
      (by norm_num) (PyVal.str "body") (by norm_num)
  · exact (rf_get_retry_spec _).2.2.2
      (by intro i hi; simp [retryable])

/-- C6: the money normalizer is total and never raises — numeric coercion
yields `None` on null, wrong-typed input (list/dict) and unparseable
strings; money extraction yields `(None, None)` on any non-mapping and
otherwise the coerced value with the currency passed through as-is. -/
theorem money_normalizer_total :
    to_float PyVal.none = Option.none
    ∧ (∀ xs, to_float (PyVal.list xs) = Option.none)
    ∧ (∀ fs, to_float (PyVal.dict fs) = Option.none)
    ∧ (∀ s, parseNum s = Option.none → to_float (PyVal.str s) = Option.none)
    ∧ (∀ m, isDict m = false → extract_money m = (Option.none, PyVal.none))
    ∧ (∀ fs, extract_money (PyVal.dict fs)
        = (to_float (pget (PyVal.dict fs) "value"), pget (PyVal.dict fs) "currency")) := by
  refine ⟨rfl, fun xs => rfl, fun fs => rfl, fun s h => h, ?_, fun fs => rfl⟩
  intro m hm
  cases m
  case dict fs => simp [isDict] at hm
  all_goals rfl

/-- Witness for C6 at concrete inputs: a non-numeric string coerces to
`None`, and extracting money from a bare string gives `(None, None)`. -/
theorem money_normalizer_total_witness :
    to_float (PyVal.str "not a number") = Option.none
    ∧ extract_money (PyVal.str "GBP") = (Option.none, PyVal.none) :=
  ⟨money_normalizer_total.2.2.2.1 "not a number" rfl,
   money_normalizer_total.2.2.2.2.1 (PyVal.str "GBP") rfl⟩

/-- C9: price value and currency travel together — the pair is the
normalized chosen-offer price, and when its value is `None` BOTH members
are replaced by the product-view `buybox_winner` price pair, so the final
pair always comes whole from one of the two sources. -/
theorem price_pair_same_source (prod offers_json : PyVal) :
    ((priceFromChosen offers_json).1.isSome →
      ((reconcile prod offers_json).price, (reconcile prod offers_json).currency)
        = priceFromChosen offers_json)
    ∧ ((priceFromChosen offers_json).1 = Option.none →
      ((reconcile prod offers_json).price, (reconcile prod offers_json).currency)
        = extract_money (pyOr (pget (bbProd prod) "price") emptyDict))
    ∧ (((reconcile prod offers_json).price, (reconcile prod offers_json).currency)
        = priceFromChosen offers_json
      ∨ ((reconcile prod offers_json).price, (reconcile prod offers_json).currency)
        = extract_money (pyOr (pget (bbProd prod) "price") emptyDict)) := by
  have hpair : ((reconcile prod offers_json).price,
      (reconcile prod offers_json).currency) = pricePair prod offers_json := rfl
  by_cases h : (priceFromChosen offers_json).1.isSome
  · have he : pricePair prod offers_json = priceFromChosen offers_json := by
      unfold pricePair
      rw [if_pos h]
    exact ⟨fun _ => hpair.trans he,
      fun h0 => absurd (h0 ▸ h) (by simp),
      Or.inl (hpair.trans he)⟩
  · have he : pricePair prod offers_json
        = extract_money (pyOr (pget (bbProd prod) "price") emptyDict) := by
      unfold pricePair
      rw [if_neg h]
    exact ⟨fun hs => absurd hs h, fun _ => hpair.trans he,
      Or.inr (hpair.trans he)⟩

/-- Witness for C9: a chosen offer whose price has a currency but no value
— the whole pair (value 5, "USD") comes from the product buybox, and the
offer's dangling "GBP" is discarded. -/
theorem price_pair_same_source_witness :
    ((reconcile
        (PyVal.dict [("product", PyVal.dict [("buybox_winner", PyVal.dict
          [("price", PyVal.dict
            [("value", PyVal.num 5), ("currency", PyVal.str "USD")])])])])
        (PyVal.dict [("offers", PyVal.list [PyVal.dict
          [("buybox_winner", PyVal.bool true),
           ("price", PyVal.dict [("currency", PyVal.str "GBP")])]])])).price,
      (reconcile
        (PyVal.dict [("product", PyVal.dict [("buybox_winner", PyVal.dict
          [("price", PyVal.dict
            [("value", PyVal.num 5), ("currency", PyVal.str "USD")])])])])
        (PyVal.dict [("offers", PyVal.list [PyVal.dict
          [("buybox_winner", PyVal.bool true),
           ("price", PyVal.dict [("currency", PyVal.str "GBP")])]])])).currency)
      = (some 5, PyVal.str "USD") := by
  rw [(price_pair_same_source
      (PyVal.dict [("product", PyVal.dict [("buybox_winner", PyVal.dict
        [("price", PyVal.dict
          [("value", PyVal.num 5), ("currency", PyVal.str "USD")])])])])
      (PyVal.dict [("offers", PyVal.list [PyVal.dict
        [("buybox_winner", PyVal.bool true),
         ("price", PyVal.dict [("currency", PyVal.str "GBP")])]])])).2.1 rfl]
  rfl

/-- C10: seller name and id fall back on falsy values (an empty string on
the chosen offer defers to the product-view buybox seller), and the two
fields are resolved independently of each other. -/
theorem seller_falsy_indep (prod offers_json : PyVal) :
    (reconcile prod offers_json).seller_name
      = pyOr (pget (sellerObj offers_json) "name") (pget (bbSeller prod) "name")
    ∧ (reconcile prod offers_json).seller_id
      = pyOr (pget (sellerObj offers_json) "id") (pget (bbSeller prod) "id")
    ∧ (pget (sellerObj offers_json) "name" = PyVal.str "" →
      (reconcile prod offers_json).seller_name = pget (bbSeller prod) "name")
    ∧ (pget (sellerObj offers_json) "id" = PyVal.str "" →
      (reconcile prod offers_json).seller_id = pget (bbSeller prod) "id") := by
  refine ⟨rfl, rfl, ?_, ?_⟩
  · intro h
    show sellerName prod offers_json = _
    unfold sellerName
    rw [h]
    rfl
  · intro h
    show sellerId prod offers_json = _
    unfold sellerId
    rw [h]
    rfl

/-- Witness for C10: an offer seller with empty name but a real id, over a
product buybox seller — the name comes from the product view while the id
stays with the offer. -/
theorem seller_falsy_indep_witness :
    (reconcile
        (PyVal.dict [("product", PyVal.dict [("buybox_winner", PyVal.dict
          [("seller", PyVal.dict
            [("name", PyVal.str "Acme"), ("id", PyVal.str "Z9")])])])])
        (PyVal.dict [("offers", PyVal.list [PyVal.dict
          [("buybox_winner", PyVal.bool true),
           ("seller", PyVal.dict
            [("name", PyVal.str ""), ("id", PyVal.str "A1")])]])])).seller_name
      = PyVal.str "Acme"
    ∧ (reconcile
        (PyVal.dict [("product", PyVal.dict [("buybox_winner", PyVal.dict
          [("seller", PyVal.dict
            [("name", PyVal.str "Acme"), ("id", PyVal.str "Z9")])])])])
        (PyVal.dict [("offers", PyVal.list [PyVal.dict
          [("buybox_winner", PyVal.bool true),
           ("seller", PyVal.dict
            [("name", PyVal.str ""), ("id", PyVal.str "A1")])]])])).seller_id
      = PyVal.str "A1" := by
  constructor
  · rw [(seller_falsy_indep
      (PyVal.dict [("product", PyVal.dict [("buybox_winner", PyVal.dict
        [("seller", PyVal.dict
          [("name", PyVal.str "Acme"), ("id", PyVal.str "Z9")])])])])
      (PyVal.dict [("offers", PyVal.list [PyVal.dict
        [("buybox_winner", PyVal.bool true),
         ("seller", PyVal.dict
          [("name", PyVal.str ""), ("id", PyVal.str "A1")])]])])).2.2.1 rfl]
    rfl
  · rw [(seller_falsy_indep
      (PyVal.dict [("product", PyVal.dict [("buybox_winner", PyVal.dict
        [("seller", PyVal.dict
          [("name", PyVal.str "Acme"), ("id", PyVal.str "Z9")])])])])
      (PyVal.dict [("offers", PyVal.list [PyVal.dict
        [("buybox_winner", PyVal.bool true),
         ("seller", PyVal.dict
          [("name", PyVal.str ""), ("id", PyVal.str "A1")])]])])).2.1]
    rfl

/-- When position `p` holds the last space of `cs`, dropping the final
space-separated token of `cs` cuts exactly at `p`. -/
theorem cutLastWord_eq_take (cs : List Char) (p : ℕ) (hp : cs[p]? = some ' ')
    (hlast : ∀ q, p < q → q < cs.length → cs[q]? ≠ some ' ') :
    cutLastWord cs = cs.take p := by
  obtain ⟨hplen, hpe⟩ := List.getElem?_eq_some.mp hp
  have hdecomp : cs.take p ++ ' ' :: cs.drop (p + 1) = cs := by
    rw [← hpe, List.getElem_cons_drop, List.take_append_drop]
  have htail : ∀ c ∈ cs.drop (p + 1), (fun c => decide (¬ c = ' ')) c = true := by
    intro c hc
    obtain ⟨k, hk, hck⟩ := List.mem_iff_getElem.mp hc
    have h1 : (cs.drop (p + 1))[k]? = some c :=
      List.getElem?_eq_some.mpr ⟨hk, hck⟩
    have h2 : cs[p + 1 + k]? = some c := by
      rw [List.getElem?_drop] at h1
      exact h1
    have hklen : p + 1 + k < cs.length := by
      have := List.length_drop (p + 1) cs
      omega
    have h3 := hlast (p + 1 + k) (by omega) hklen
    simp only [decide_eq_true_eq]
    intro hcsp
    rw [hcsp] at h2
    exact h3 h2
  have hrev : cs.reverse
      = (cs.drop (p + 1)).reverse ++ ' ' :: (cs.take p).reverse := by
    conv_lhs => rw [← hdecomp]
    simp [List.reverse_append]
  have h1 : List.dropWhile (fun c => decide (¬ c = ' '))
      (cs.drop (p + 1)).reverse = [] :=
    List.dropWhile_eq_nil_iff.mpr
      (fun x hx => htail x (List.mem_reverse.mp hx))
  have hdw : cs.reverse.dropWhile (fun c => c ≠ ' ')
      = ' ' :: (cs.take p).reverse := by
    show cs.reverse.dropWhile (fun c => decide (¬ c = ' ')) = _
    rw [hrev, List.dropWhile_append, h1]
    simp only [List.isEmpty_nil, if_true]
    rw [List.dropWhile_cons_of_neg (by simp)]
  unfold cutLastWord
  rw [hdw]
  simp

/-- When `cs` has no space, dropping its final token keeps everything. -/
theorem cutLastWord_of_no_space (cs : List Char) (h : ∀ c ∈ cs, c ≠ ' ') :
    cutLastWord cs = cs := by
  have hdw : cs.reverse.dropWhile (fun c => c ≠ ' ') = [] := by
    show cs.reverse.dropWhile (fun c => decide (¬ c = ' ')) = _
    exact List.dropWhile_eq_nil_iff.mpr
      (fun x hx => by simpa using h x (List.mem_reverse.mp hx))
  unfold cutLastWord
  rw [hdw]

/-- Unfolding of `shorten` on a non-empty (truthy) string. -/
theorem shorten_some_ne (s : List Char) (hs : s ≠ []) (limit : ℕ) :
    shorten (some s) limit =
      if (collapse s).length ≤ limit then some (collapse s)
      else some ((if cutLastWord ((collapse s).take limit) = []
                  then (collapse s).take limit
                  else cutLastWord ((collapse s).take limit)) ++ ['…']) := by
  unfold shorten
  dsimp only
  rw [if_neg hs]

/-- C8 counterexample: collapsed text `"ab cd ef"` at limit 5.  There is a
word boundary exactly at the limit (position 5 holds a space, so the
complete word `"cd"` ends at the limit), and the claim's rule keeps it:
`"ab cd…"`.  The code instead drops the last space-separated token of the
5-character prefix and returns `"ab…"` — so "truncate at the last word
boundary at or before the limit" is false for the code. -/
theorem shorten_word_boundary_cex :
    shorten (some ['a', 'b', ' ', 'c', 'd', ' ', 'e', 'f']) 5
        = some ['a', 'b', '…']
    ∧ shortenClaimCut (collapse ['a', 'b', ' ', 'c', 'd', ' ', 'e', 'f']) 5
        = some ['a', 'b', ' ', 'c', 'd', '…']
    ∧ shorten (some ['a', 'b', ' ', 'c', 'd', ' ', 'e', 'f']) 5
        ≠ shortenClaimCut (collapse ['a', 'b', ' ', 'c', 'd', ' ', 'e', 'f']) 5 :=
  ⟨by decide, by decide, by decide⟩

/-- C8 (amended): truncation collapses whitespace runs first; a collapsed
text within the limit is returned unmodified with no ellipsis; otherwise
the cut happens at the last word boundary STRICTLY BEFORE the limit (a
complete word ending exactly at the limit is still dropped), the
length-limit prefix being kept whole when it contains no space; the
ellipsis appears exactly when truncation occurred. -/
theorem shorten_truncation_spec (s : List Char) (limit : ℕ) :
    shorten Option.none limit = Option.none
    ∧ (s = [] → shorten (some s) limit = some s)
    ∧ (s ≠ [] → (collapse s).length ≤ limit →
        shorten (some s) limit = some (collapse s))
    ∧ (s ≠ [] → limit < (collapse s).length →
        ∀ p, 0 < p → p < limit → (collapse s)[p]? = some ' ' →
        (∀ q, p < q → q < limit → (collapse s)[q]? ≠ some ' ') →
        shorten (some s) limit = some ((collapse s).take p ++ ['…']))
    ∧ (s ≠ [] → limit < (collapse s).length →
        (∀ q, q < limit → (collapse s)[q]? ≠ some ' ') →
        shorten (some s) limit = some ((collapse s).take limit ++ ['…'])) := by
  refine ⟨rfl, ?_, ?_, ?_, ?_⟩
  · intro h
    subst h
    rfl
  · intro hs hle
    rw [shorten_some_ne s hs limit, if_pos hle]
  · intro hs hlen p hp0 hpl hsp hlast
    rw [shorten_some_ne s hs limit, if_neg (by omega)]
    have hcs_sp : ((collapse s).take limit)[p]? = some ' ' := by
      rw [List.getElem?_take, if_pos hpl]
      exact hsp
    have hcs_last : ∀ q, p < q → q < ((collapse s).take limit).length →
        ((collapse s).take limit)[q]? ≠ some ' ' := by
      intro q hq1 hq2
      have hql : q < limit := by
        rw [List.length_take] at hq2
        omega
      rw [List.getElem?_take, if_pos hql]
      exact hlast q hq1 hql
    rw [cutLastWord_eq_take ((collapse s).take limit) p hcs_sp hcs_last,
      List.take_take]
    have hmin : p ⊓ limit = p := min_eq_left (le_of_lt hpl)
    rw [hmin]
    rw [if_neg ?hne]
    case hne =>
      intro hnil
      have := congrArg List.length hnil
      rw [List.length_take] at this
      simp only [List.length_nil] at this
      omega
  · intro hs hlen hnone
    rw [shorten_some_ne s hs limit, if_neg (by omega)]
    have hno : ∀ c ∈ (collapse s).take limit, c ≠ ' ' := by
      intro c hc
      obtain ⟨k, hk, hck⟩ := List.mem_iff_getElem.mp hc
      have hkl : k < limit := by
        rw [List.length_take] at hk
        omega
      intro hceq
      have h1 : ((collapse s).take limit)[k]? = some c :=
        List.getElem?_eq_some.mpr ⟨hk, hck⟩
      rw [List.getElem?_take, if_pos hkl] at h1
      exact hnone k hkl (hceq ▸ h1)
    rw [cutLastWord_of_no_space _ hno, ite_self]

/-- Witness for C8's amended theorem on `"ab cd ef"` at limit 5: the code
cuts at the space strictly inside the prefix (position 2), not the one at
the limit. -/
theorem shorten_truncation_spec_witness :
    shorten (some ['a', 'b', ' ', 'c', 'd', ' ', 'e', 'f']) 5
      = some ((collapse ['a', 'b', ' ', 'c', 'd', ' ', 'e', 'f']).take 2 ++ ['…']) :=
  (shorten_truncation_spec ['a', 'b', ' ', 'c', 'd', ' ', 'e', 'f'] 5).2.2.2.1
    (by decide) (by decide) 2 (by decide) (by decide) (by decide)
    (by intro q h1 h2; interval_cases q <;> decide)
